import Mathlib

/-!
# Verification of the gateway control plane's cache, JWKS client and xDS JWT translation

This development shallowly embeds the core algorithmic parts of the repository:

* `internal/cache/cache.go` — the generic expiring cache (`Store`, `Get`,
  `DeleteExpired`, eviction callbacks);
* `internal/authentication/jwks/client.go` — the JWKS key client
  (`newClient`, `GetKey`, `refreshKey`, `getKey`, `store`);
* `internal/xds/translator/authentication.go` — the listener-level JWT
  authentication filter builder (`buildJwtAuthn`, `uniqueJwtAuthnProviders`,
  `newJwksCluster`);
* the route-set JWT config builder `convertToEnvoyJwtConfig` and the
  listener assembly helper `addXdsTLSInspectorFilter` from the xDS
  translator listener file.

Go machine state is made explicit: wall-clock reads become `Int` parameters
(`UnixNano` / `Unix` instants), maps become association lists with
overwrite-on-insert, goroutine dispatch and callback invocation become
explicit event lists returned alongside the new state, and external I/O
(DNS resolution, the JWKS `Source`) becomes oracle function parameters.
-/

namespace Gateway

/-! ## Association lists (the embedding of Go maps) -/

/-- Lookup in an association list: the value paired with the first
occurrence of `k`, mirroring a Go map read (keys are unique in every list
this development builds). -/
def assocFind (l : List (String × α)) (k : String) : Option α :=
  match l.find? (fun kv => kv.1 == k) with
  | some kv => some kv.2
  | none => none

/-- Go map assignment `m[k] = v`: replace the binding of `k` if present,
otherwise append it. -/
def assocInsert (l : List (String × α)) (k : String) (v : α) : List (String × α) :=
  match l with
  | [] => [(k, v)]
  | kv :: rest => if kv.1 == k then (k, v) :: rest else kv :: assocInsert rest k v

/-- Go map deletion `delete(m, k)`: remove the first binding of `k`. -/
def assocErase (l : List (String × α)) (k : String) : List (String × α) :=
  match l with
  | [] => []
  | kv :: rest => if kv.1 == k then rest else kv :: assocErase rest k

/-! ## Expiring cache (`internal/cache/cache.go`)

Instants are Go `UnixNano` values (`Int`).  The cache value type is a
parameter `α` (Go stores `interface{}`).  The registered eviction callback
is modelled by the flag `onEvictedSet` plus an explicit list of `(key,
value)` callback invocations returned by each mutating operation. -/

/-- Go `cache.NoExpiration`. -/
def NoExpiration : Int := -1

/-- Go `cache.DefaultExpiration`. -/
def DefaultExpiration : Int := 0

/-- Go `cache.Item`: a stored object and its absolute expiration instant in
`UnixNano` (`0` means never expires). -/
structure Item (α : Type) where
  object : α
  expiration : Int
  deriving Repr, DecidableEq

/-- Go `Item.Expired`: true when the item has an expiration and the current
instant is strictly past it. -/
def Item.Expired (i : Item α) (now : Int) : Bool :=
  if i.expiration = 0 then false else decide (now > i.expiration)

/-- Go `cache.Cache`: default expiration plus the item map.  `onEvictedSet`
records whether `OnEvicted` has registered a callback (the Go field
`onEvicted != nil`). -/
structure Cache (α : Type) where
  defaultExpiration : Int
  items : List (String × Item α)
  onEvictedSet : Bool
  deriving Repr, DecidableEq

namespace Cache

/-- Go `cache.New`: a zero expiration duration is replaced by `NoExpiration`.
The cleanup interval only controls the background sweep goroutine, which is
modelled by explicit `deleteExpired` invocations, so it does not appear in
the state. -/
def new (α : Type) (expiration : Int) : Cache α :=
  { defaultExpiration := if expiration = 0 then NoExpiration else expiration
    items := []
    onEvictedSet := false }

/-- Go `Cache.Store`: overwrite the binding of `key`; `duration = 0` means use
the default, a non-positive resolved duration means never expires.  The
returned event list is the calls made to the eviction callback — `Store`
makes none. -/
def store (c : Cache α) (now : Int) (key : String) (val : α) (duration : Int) :
    Cache α × List (String × α) :=
  let duration := if duration = DefaultExpiration then c.defaultExpiration else duration
  let exp : Int := if duration > 0 then now + duration else 0
  ({ c with items := assocInsert c.items key ⟨val, exp⟩ }, [])

/-- Go `Cache.Get`: not found when the key is absent or when the entry has an
expiration that is strictly in the past (`time.Now().UnixNano() >
item.Expiration`). -/
def get (c : Cache α) (now : Int) (key : String) : Option α :=
  match assocFind c.items key with
  | none => none
  | some item =>
    if item.expiration > 0 then
      if now > item.expiration then none else some item.object
    else some item.object

/-- Go `Cache.delete` (the private helper): remove the binding and report the
removed value exactly when an eviction callback is registered and the key
was present. -/
def deleteKey (c : Cache α) (key : String) : Cache α × Option α :=
  if c.onEvictedSet then
    match assocFind c.items key with
    | some item => ({ c with items := assocErase c.items key }, some item.object)
    | none => ({ c with items := assocErase c.items key }, none)
  else ({ c with items := assocErase c.items key }, none)

/-- One step of the `DeleteExpired` scan: process one `(key, item)` pair as
ranged over by the Go loop, accumulating the evicted `(key, value)` pairs. -/
def deleteExpiredStep (now : Int) (acc : Cache α × List (String × α))
    (kv : String × Item α) : Cache α × List (String × α) :=
  if kv.2.Expired now then
    match (acc.1).deleteKey kv.1 with
    | (cNew, some v) => (cNew, acc.2 ++ [(kv.1, v)])
    | (cNew, none) => (cNew, acc.2)
  else acc

/-- Go `Cache.DeleteExpired`: scan all entries, delete the expired ones, and
return the `(key, value)` pairs passed to the eviction callback after the
lock is released (the second component, in invocation order). -/
def deleteExpired (c : Cache α) (now : Int) : Cache α × List (String × α) :=
  c.items.foldl (deleteExpiredStep now) (c, [])

/-- Go `Cache.OnEvicted`: register a callback. -/
def onEvicted (c : Cache α) : Cache α := { c with onEvictedSet := true }

end Cache

/-! ## JWKS client (`internal/authentication/jwks/client.go`, `source.go`)

The `Source` collaborator is pure I/O, so its single `GetJWKS` call made by
one `GetKey` invocation is modelled by an oracle value of type
`Except String JSONWebKeySet` carried in the client state.  Clock reads are
explicit parameters: `now` is the `UnixNano` instant used by the cache and
`nowS` the `Unix`-seconds instant used for the soft-refresh comparison and
deadline (the Go code reads the clock separately at those points). -/

/-- A JSON web key, with the fields the client consults (`go-jose`'s
`JSONWebKey.KeyID` is the lookup key of `JSONWebKeySet.Key`). -/
structure JSONWebKey where
  keyID : String
  material : String
  deriving Repr, DecidableEq

/-- Go `jose.JSONWebKeySet`. -/
structure JSONWebKeySet where
  keys : List JSONWebKey
  deriving Repr, DecidableEq

/-- Go `JSONWebKeySet.Key(kid)`: all keys whose key ID matches. -/
def JSONWebKeySet.key (s : JSONWebKeySet) (kid : String) : List JSONWebKey :=
  s.keys.filter (fun k => k.keyID == kid)

/-- Go `jwks.cacheEntry`: the cached key and its soft-refresh deadline in Unix
seconds. -/
structure JwksCacheEntry where
  jwk : JSONWebKey
  refresh : Int
  deriving Repr, DecidableEq

/-- Go `jwks.pubKeyExpiration = 12 * time.Hour` in nanoseconds. -/
def pubKeyExpiration : Int := 12 * 3600 * 1000000000

/-- Go `jwks.client`: the source oracle (outcome of the next `GetJWKS` call),
the key cache, the soft-refresh duration in seconds, and the weight-1
semaphore (`semFree` is true when `TryAcquire(1)` would succeed). -/
structure JwksClient where
  source : Except String JSONWebKeySet
  cache : Cache JwksCacheEntry
  refresh : Int
  semFree : Bool

/-- Go `jwks.newCache`: panics (`none`) when `ttl < -1`, otherwise builds the
cache with the fixed `pubKeyExpiration` default (the cleanup interval only
starts the sweep goroutine). -/
def newJwksCache (ttl : Int) : Option (Cache JwksCacheEntry) :=
  if ttl < -1 then none else some (Cache.new JwksCacheEntry pubKeyExpiration)

/-- Go `jwks.newClient`: panics (`none`) when `refresh >= ttl` or
`refresh < 0`; otherwise returns the client with a fresh weight-1
semaphore. -/
def newClient (src : Except String JSONWebKeySet) (refresh ttl : Int) : Option JwksClient :=
  if refresh ≥ ttl then none
  else if refresh < 0 then none
  else (newJwksCache ttl).map (fun c =>
    { source := src, cache := c, refresh := refresh, semFree := true })

/-- The observable outcome of one `GetKey` call: the returned value or
error, the cache state as left by the synchronous path, how many
synchronous `Source.GetJWKS` fetches the call performed before returning,
and whether it dispatched an asynchronous refresh goroutine. -/
structure GetKeyResult where
  result : Except String JSONWebKey
  cache : Cache JwksCacheEntry
  syncFetches : Nat
  asyncDispatched : Bool

/-- Go `client.getKey`: fetch the entire key set from the source, then locate
the requested key ID, failing with a not-found error when absent (the loop
returns the first matching key). -/
def JwksClient.getKeySet (c : JwksClient) (keyId use : String) :
    Except String JSONWebKey :=
  match c.source with
  | .error e => .error e
  | .ok ks =>
    match ks.key keyId with
    | [] => .error ("JWK key " ++ keyId ++ " not found")
    | k :: _ =>
      let _ := use
      .ok k

/-- Go `client.store`: cache the key under its ID with a fresh soft-refresh
deadline `now + c.refresh` (seconds) and the fixed `pubKeyExpiration` TTL. -/
def JwksClient.storeKey (c : JwksClient) (now nowS : Int) (keyId : String)
    (jwk : JSONWebKey) : Cache JwksCacheEntry :=
  (c.cache.store now keyId ⟨jwk, nowS + c.refresh⟩ pubKeyExpiration).1

/-- Go `client.refreshKey`: `getKey` then `store` on success. -/
def JwksClient.refreshKey (c : JwksClient) (now nowS : Int) (keyId use : String) :
    Except String JSONWebKey × Cache JwksCacheEntry :=
  match c.getKeySet keyId use with
  | .error e => (.error e, c.cache)
  | .ok jwk => (.ok jwk, c.storeKey now nowS keyId jwk)

/-- Go `client.GetKey`.  `hasLogger` models whether `logr.FromContext(ctx)`
succeeds.  On a cache hit the entry is returned at once; when the instant
is strictly past the soft-refresh deadline and `TryAcquire(1)` succeeds an
asynchronous refresh is dispatched (its outcome never reaches this caller).
On a miss, `refreshKey` runs synchronously. -/
def JwksClient.getKey (c : JwksClient) (hasLogger : Bool) (now nowS : Int)
    (keyId use : String) : GetKeyResult :=
  if !hasLogger then
    { result := .error "no logr.Logger in context", cache := c.cache
      syncFetches := 0, asyncDispatched := false }
  else
    match c.cache.get now keyId with
    | some entry =>
      { result := .ok entry.jwk
        cache := c.cache
        syncFetches := 0
        asyncDispatched := decide (nowS > entry.refresh) && c.semFree }
    | none =>
      let (res, cache) := c.refreshKey now nowS keyId use
      { result := res, cache := cache, syncFetches := 1, asyncDispatched := false }

/-! ## IR and API data model for the JWT translator

Modelled from the spec: the type declarations `ir.HTTPListener`,
`ir.HTTPRoute`, `ir.RequestAuthentication`, `ir.JwtRequestAuthentication`,
`v1alpha1.JwtAuthenticationFilterProvider`, `v1alpha1.RemoteJWKS` and
`ir.JWTRule` are not among the repository files here; only the translator
code using them is.  Their fields are taken from §3 of the spec (issuer,
audiences, remote-JWKS URI, name) and from the field accesses in the
translator source.  Go `nil` pointers become `Option`. -/

/-- Modelled from the spec: `v1alpha1.RemoteJWKS`, holding the JWKS URI
(`provider.RemoteJWKS.URI`). -/
structure RemoteJWKS where
  uri : String
  deriving Repr, DecidableEq

/-- Modelled from the spec: `v1alpha1.JwtAuthenticationFilterProvider` with
a name, issuer, audiences and remote JWKS source. -/
structure JwtAuthenticationFilterProvider where
  name : String
  issuer : String
  audiences : List String
  remoteJWKS : RemoteJWKS
  deriving Repr, DecidableEq

/-- Modelled from the spec: the `JWT` field of an IR
`RequestAuthentication`, an ordered provider list. -/
structure JwtRequestAuthentication where
  providers : List JwtAuthenticationFilterProvider
  deriving Repr, DecidableEq

/-- Modelled from the spec: `ir.RequestAuthentication`; its `JWT` pointer
may be nil. -/
structure RequestAuthentication where
  jwt : Option JwtRequestAuthentication
  deriving Repr, DecidableEq

/-- Modelled from the spec: the slice of an `ir.HTTPRoute` relevant to JWT
translation; the `RequestAuthentication` pointer may be nil. -/
structure HTTPRoute where
  name : String
  requestAuthentication : Option RequestAuthentication
  deriving Repr, DecidableEq

/-- Modelled from the spec: `ir.HTTPListener` with its name and ordered
routes; route slice elements are pointers and may be nil. -/
structure HTTPListener where
  name : String
  routes : List (Option HTTPRoute)
  deriving Repr, DecidableEq

/-- Modelled from the spec: `ir.JWTRule` as consumed by
`convertToEnvoyJwtConfig` (issuer, audiences, optional remote JWKS with a
URI and a precomputed cluster name). -/
structure JWTRuleRemoteJwks where
  uri : String
  cluster : String
  deriving Repr, DecidableEq

/-- Modelled from the spec: an IR JWT rule for the route-set builder. -/
structure JWTRule where
  issuer : String
  audiences : List String
  remoteJwks : Option JWTRuleRemoteJwks
  deriving Repr, DecidableEq

/-! ## Envoy JWT filter wire objects

The output value objects of the translator
(`envoy.extensions.filters.http.jwt_authn.v3`), embedded with exactly the
fields the translator populates. -/

/-- A `JwtRequirement` tree: single provider reference, OR-list, AND-list,
or the allow-missing sentinel. -/
inductive JwtRequirement where
  | providerName (name : String)
  | requiresAny (requirements : List JwtRequirement)
  | requiresAll (requirements : List JwtRequirement)
  | allowMissing
  deriving Repr

/-- The `RemoteJwks` part of an Envoy `JwtProvider`: URI, target cluster,
timeout and cache duration in seconds. -/
structure EnvoyRemoteJwks where
  uri : String
  cluster : String
  timeoutSeconds : Int
  cacheDurationSeconds : Int
  deriving Repr, DecidableEq

/-- An Envoy `JwtProvider` as populated by the translator. -/
structure EnvoyJwtProvider where
  issuer : String
  audiences : List String
  remoteJwks : Option EnvoyRemoteJwks
  payloadInMetadata : String
  deriving Repr, DecidableEq

/-- A `RequirementRule`: the route match (always the `/` prefix here) and
the requirement tree. -/
structure RequirementRule where
  routeMatchPath : String
  requires : JwtRequirement
  deriving Repr

/-- A `JwtAuthentication` filter config: rules plus the provider map
(association list keyed by provider name). -/
structure JwtAuthentication where
  rules : List RequirementRule
  providers : List (String × EnvoyJwtProvider)
  bypassCorsPreflight : Bool := false
  deriving Repr

/-! ## JWKS cluster synthesis (`newJwksCluster`, `resolveHostname`)

`url.Parse` is modelled for the URI shape the translator consumes:
`scheme://host[:port][/path…]`, where Go's `u.Host` keeps the `:port`
suffix and `u.Port()` is the digits after the colon.  DNS resolution
(`net.LookupIP` with the literal-IPv4 `net.ParseIP` fallback) is external
I/O and becomes an oracle `resolve : String → Except String (List String)`
standing for the whole `resolveHostname` outcome. -/

/-- The result of `url.Parse` restricted to the fields the translator
reads: `u.Scheme` and `u.Host` (authority, with the `:port` suffix kept). -/
structure ParsedURL where
  scheme : String
  host : String
  deriving Repr, DecidableEq

/-- Split a character list at every occurrence of `sep` (the char-list
form of `strings.Split`). -/
def splitOnChar (sep : Char) : List Char → List (List Char)
  | [] => [[]]
  | x :: xs =>
    let r := splitOnChar sep xs
    if x = sep then [] :: r
    else
      match r with
      | h :: t => (x :: h) :: t
      | [] => [[x]]

/-- Split off the `scheme` before the first `://`. -/
def splitScheme : List Char → Option (List Char × List Char)
  | ':' :: '/' :: '/' :: rest => some ([], rest)
  | x :: xs => (splitScheme xs).map (fun st => (x :: st.1, st.2))
  | [] => none

/-- Go accepts a host that is either portless or `name:digits`. -/
def validHostChars (l : List Char) : Bool :=
  match splitOnChar ':' l with
  | [_] => true
  | [_, p] => !p.isEmpty && p.all Char.isDigit
  | _ => false

/-- Go `u.Port()`: the digits after the colon, if the host carries a port. -/
def hostPort (host : String) : Option String :=
  match splitOnChar ':' host.data with
  | [_, p] => some ⟨p⟩
  | _ => none

/-- Go `u.Hostname()`: the host with any `:port` suffix stripped. -/
def hostnameOf (host : String) : String :=
  match splitOnChar ':' host.data with
  | [h, _] => ⟨h⟩
  | _ => host

/-- Go `url.Parse` on `scheme://host[:port][/path…]`. -/
def parseURL (s : String) : Option ParsedURL :=
  match splitScheme s.data with
  | none => none
  | some st =>
    let host := st.2.takeWhile (fun c => c ≠ '/')
    if !st.1.isEmpty && validHostChars host then some ⟨⟨st.1⟩, ⟨host⟩⟩ else none

/-- Go `strings.ReplaceAll(s, ".", "_")`. -/
def replaceDots (s : String) : String :=
  ⟨s.data.map (fun c => if c = '.' then '_' else c)⟩

/-- Go `strconv.Atoi` on a non-negative decimal numeral. -/
def strAtoi? (s : String) : Option Nat :=
  if s.data.isEmpty then none
  else
    s.data.foldl
      (fun acc? c =>
        acc?.bind (fun acc =>
          if c.isDigit then some (acc * 10 + (c.toNat - '0'.toNat)) else none))
      (some 0)

/-- Go `translator.jwksCluster`. -/
structure JwksCluster where
  name : String
  addresses : List String
  port : Int
  deriving Repr, DecidableEq

/-- Go `translator.newJwksCluster`: parse the remote-JWKS URI, derive the port
from the scheme unless the URI carries one, resolve the host, and name the
cluster `u.Host` with dots replaced by underscores followed by `_port`. -/
def newJwksCluster (resolve : String → Except String (List String))
    (provider : JwtAuthenticationFilterProvider) : Except String JwksCluster :=
  match parseURL provider.remoteJWKS.uri with
  | none => .error "url parse error"
  | some u =>
    let schemePort : Option String :=
      if u.scheme = "http" then some "80"
      else if u.scheme = "https" then some "443"
      else none
    match schemePort with
    | none => .error ("unsupported JWKS URI scheme " ++ u.scheme)
    | some defaultPort =>
      let strPort := (hostPort u.host).getD defaultPort
      match resolve u.host with
      | .error e => .error e
      | .ok addrs =>
        let clusterName := replaceDots u.host ++ "_" ++ strPort
        match strAtoi? strPort with
        | none => .error "strconv.Atoi"
        | some port => .ok ⟨clusterName, addrs, (port : Int)⟩

/-! ## Provider collection and the listener-level filter builder
(`uniqueJwtAuthnProviders`, `buildJwtAuthn` in
`internal/xds/translator/authentication.go`) -/

/-- Go `cmp.Equal` with `cmpopts.IgnoreFields(…, "Name")`: structural equality
of providers on every field except the name. -/
def providerEqIgnoreName (p q : JwtAuthenticationFilterProvider) : Bool :=
  p.issuer == q.issuer && p.audiences == q.audiences && p.remoteJWKS == q.remoteJWKS

/-- The inner loop body of `uniqueJwtAuthnProviders`: append the provider
unless an equivalent one (ignoring the name) was already collected.  The
Go code appends unconditionally while the collected slice is still nil. -/
def appendUniqueProvider (ps : List JwtAuthenticationFilterProvider)
    (p : JwtAuthenticationFilterProvider) : List JwtAuthenticationFilterProvider :=
  if ps.isEmpty then ps ++ [p]
  else if ps.any (fun q => providerEqIgnoreName q p) then ps
  else ps ++ [p]

/-- The route loop of `uniqueJwtAuthnProviders`: a nil route, nil
`RequestAuthentication` or nil `JWT` returns the providers collected so
far, abandoning the remaining routes. -/
def collectProviders (acc : List JwtAuthenticationFilterProvider) :
    List (Option HTTPRoute) → List JwtAuthenticationFilterProvider
  | [] => acc
  | r :: rest =>
    match r with
    | none => acc
    | some route =>
      match route.requestAuthentication with
      | none => acc
      | some ra =>
        match ra.jwt with
        | none => acc
        | some jwt => collectProviders (jwt.providers.foldl appendUniqueProvider acc) rest

/-- Go `translator.uniqueJwtAuthnProviders` for a (non-nil) listener. -/
def uniqueJwtAuthnProviders (l : HTTPListener) : List JwtAuthenticationFilterProvider :=
  if l.routes.isEmpty then [] else collectProviders [] l.routes

/-- The Envoy provider built by `buildJwtAuthn` for one IR provider, given
the synthesized cluster name: remote JWKS with a 5s timeout and 5min cache
duration, payload in metadata keyed by the issuer. -/
def mkEnvoyProviderFromIR (p : JwtAuthenticationFilterProvider)
    (clusterName : String) : EnvoyJwtProvider :=
  { issuer := p.issuer
    audiences := p.audiences
    remoteJwks := some ⟨p.remoteJWKS.uri, clusterName, 5, 5 * 60⟩
    payloadInMetadata := p.issuer }

/-- The provider loop of `buildJwtAuthn`: populate the provider map and
append one bare provider-name requirement per provider, stopping at the
first `newJwksCluster` error. -/
def buildJwtAuthnLoop (resolve : String → Except String (List String)) :
    List JwtAuthenticationFilterProvider →
    List (String × EnvoyJwtProvider) → List JwtRequirement →
    Except String (List (String × EnvoyJwtProvider) × List JwtRequirement)
  | [], provs, reqs => .ok (provs, reqs)
  | p :: rest, provs, reqs =>
    match newJwksCluster resolve p with
    | .error e => .error e
    | .ok c =>
      buildJwtAuthnLoop resolve rest
        (assocInsert provs p.name (mkEnvoyProviderFromIR p c.name))
        (reqs ++ [.providerName p.name])

/-- Go `translator.buildJwtAuthn`: error when the listener has no collected
providers; with exactly one provider the single rule requires that provider
bare (`reqs[0]`); with more, it requires any of the bare references.  The
loop appends exactly one requirement per provider, so matching `reqs`
against a singleton is the Go test `len(irProviders) == 1`. -/
def buildJwtAuthn (resolve : String → Except String (List String))
    (l : HTTPListener) : Except String JwtAuthentication :=
  let irProviders := uniqueJwtAuthnProviders l
  if irProviders.isEmpty then
    .error ("listener " ++ l.name ++ " contains no jwt authn providers")
  else
    match buildJwtAuthnLoop resolve irProviders [] [] with
    | .error e => .error e
    | .ok (provs, reqs) =>
      match reqs with
      | [r] => .ok { rules := [⟨"/", r⟩], providers := provs }
      | _ => .ok { rules := [⟨"/", .requiresAny reqs⟩], providers := provs }

/-! ## The route-set JWT config builder (`convertToEnvoyJwtConfig`) -/

/-- The Envoy provider built by `convertToEnvoyJwtConfig` for one IR JWT
rule.  The non-nil `RemoteJwks` branch of the source is embedded; the local
JWKS branch calls a verifier absent from the source files, so a rule with
no remote JWKS maps to a provider with no JWKS source here. -/
def envoyProviderFromRule (rule : JWTRule) : EnvoyJwtProvider :=
  { issuer := rule.issuer
    audiences := rule.audiences
    remoteJwks := rule.remoteJwks.map (fun r => ⟨r.uri, r.cluster, 5, 5 * 60⟩)
    payloadInMetadata := rule.issuer }

/-- The synthesized provider key `origins-<i>`. -/
def originName (i : Nat) : String := "origins-" ++ toString i

/-- Go `translator.convertToEnvoyJwtConfig`: providers are keyed `origins-i`;
with one rule the requirement is `{provider OR allow_missing}`; with more
it is the OR of every bare provider reference together with the AND of the
per-provider `{provider OR allow_missing}` requirements.  The inner list
has one element per rule, so matching it against a singleton is the Go
test `len(innerAndList) == 1`. -/
def convertToEnvoyJwtConfig (rules : List JWTRule) : Option JwtAuthentication :=
  if rules.isEmpty then none
  else
    let providers := rules.enum.foldl
      (fun m iv => assocInsert m (originName iv.1) (envoyProviderFromRule iv.2)) []
    let innerAndList := rules.enum.map (fun iv =>
      JwtRequirement.requiresAny [.providerName (originName iv.1), .allowMissing])
    let outterOrList := rules.enum.map (fun iv =>
      JwtRequirement.providerName (originName iv.1))
    match innerAndList with
    | [r] =>
      some { rules := [⟨"/", r⟩], providers := providers, bypassCorsPreflight := true }
    | _ =>
      some { rules := [⟨"/", .requiresAny (outterOrList ++ [.requiresAll innerAndList])⟩]
             providers := providers
             bypassCorsPreflight := true }

/-! ## Listener assembly: the TLS inspector filter -/

/-- Go `wellknown.TlsInspector`. -/
def tlsInspectorFilterName : String := "envoy.filters.listener.tls_inspector"

/-- An xDS listener filter (only its name matters to the dedup check; the
typed config carries no data). -/
structure ListenerFilter where
  name : String
  deriving Repr, DecidableEq

/-- The slice of an xDS `Listener` touched by `addXdsTLSInspectorFilter`. -/
structure XdsListener where
  name : String
  listenerFilters : List ListenerFilter
  deriving Repr, DecidableEq

/-- Go `translator.addXdsTLSInspectorFilter`: return the listener unchanged
when a TLS-inspector filter already exists, otherwise append one. -/
def addXdsTLSInspectorFilter (l : XdsListener) : XdsListener :=
  if l.listenerFilters.any (fun f => f.name == tlsInspectorFilterName) then l
  else { l with listenerFilters := l.listenerFilters ++ [⟨tlsInspectorFilterName⟩] }

/-- The number of TLS-inspector entries in a listener's filter list. -/
def tlsInspectorCount (l : XdsListener) : Nat :=
  (l.listenerFilters.filter (fun f => f.name == tlsInspectorFilterName)).length

/-! ## Statement-side helper predicates and concrete fixtures -/

/-- A route that passes all three nil checks of the provider-collection
loop: non-nil route with non-nil `RequestAuthentication` and non-nil
`JWT`. -/
def routeHasJwtStruct : Option HTTPRoute → Bool
  | some route =>
    match route.requestAuthentication with
    | some ra => ra.jwt.isSome
    | none => false
  | none => false

/-- A one-provider route around the given provider. -/
def mkJwtRoute (rname : String) (ps : List JwtAuthenticationFilterProvider) :
    Option HTTPRoute :=
  some ⟨rname, some ⟨some ⟨ps⟩⟩⟩

/-- Fixture provider `p1` for witnesses. -/
def fixtureP1 : JwtAuthenticationFilterProvider :=
  ⟨"p1", "https://issuer.one", ["aud1"], ⟨"https://a.b/jwks.json"⟩⟩

/-- Fixture provider `p2`: identical to `fixtureP1` except the name. -/
def fixtureP2 : JwtAuthenticationFilterProvider :=
  ⟨"p2", "https://issuer.one", ["aud1"], ⟨"https://a.b/jwks.json"⟩⟩

/-- Fixture provider `p3`: distinct content from `fixtureP1`. -/
def fixtureP3 : JwtAuthenticationFilterProvider :=
  ⟨"p3", "https://issuer.three", ["aud3"], ⟨"https://c.d/jwks.json"⟩⟩

/-- A resolver oracle that answers portless hosts with one address and
fails on every host that still carries a `:port` suffix, the behaviour of
`net.LookupIP`/`net.ParseIP` on such strings. -/
def fixtureResolve (s : String) : Except String (List String) :=
  if hostPort s = none then .ok ["1.2.3.4"] else .error "lookup failed"

/-- One-provider fixture listener. -/
def fixtureL1 : HTTPListener := ⟨"listener-1", [mkJwtRoute "r1" [fixtureP1]]⟩

/-- Two-provider fixture listener (distinct provider contents). -/
def fixtureL2 : HTTPListener :=
  ⟨"listener-2", [mkJwtRoute "r1" [fixtureP1], mkJwtRoute "r2" [fixtureP3]]⟩

/-- The filter config `buildJwtAuthn` produces for `fixtureL1` under
`fixtureResolve`. -/
def fixtureAuth1 : JwtAuthentication :=
  { rules := [⟨"/", .providerName "p1"⟩]
    providers := [("p1", mkEnvoyProviderFromIR fixtureP1 "a_b_443")] }

/-- The filter config `buildJwtAuthn` produces for `fixtureL2` under
`fixtureResolve`. -/
def fixtureAuth2 : JwtAuthentication :=
  { rules := [⟨"/", .requiresAny [.providerName "p1", .providerName "p3"]⟩]
    providers := [("p1", mkEnvoyProviderFromIR fixtureP1 "a_b_443"),
                  ("p3", mkEnvoyProviderFromIR fixtureP3 "c_d_443")] }

/-- Two-route fixture listener whose providers differ only in name. -/
def fixtureL12 : HTTPListener :=
  ⟨"dedup", [mkJwtRoute "r1" [fixtureP1], mkJwtRoute "r2" [fixtureP2]]⟩

/-- The filter config `buildJwtAuthn` produces for `fixtureL12` under
`fixtureResolve`. -/
def fixtureAuthDedup : JwtAuthentication :=
  { rules := [⟨"/", .providerName "p1"⟩]
    providers := [("p1", mkEnvoyProviderFromIR fixtureP1 "a_b_443")] }

/-- Fixture JWT rule for the route-set builder. -/
def fixtureRule1 : JWTRule := ⟨"https://issuer.one", ["aud1"], some ⟨"https://a.b/jwks.json", "a_b_443"⟩⟩

/-- Second fixture JWT rule for the route-set builder. -/
def fixtureRule2 : JWTRule := ⟨"https://issuer.three", ["aud3"], some ⟨"https://c.d/jwks.json", "c_d_443"⟩⟩

/-- Fixture cache for the eviction-callback witness: callback registered,
one entry expired at instant 10 and one that never expires. -/
def fixtureEvictCache : Cache Int :=
  { defaultExpiration := NoExpiration
    items := [("a", ⟨1, 5⟩), ("b", ⟨2, 0⟩)]
    onEvictedSet := true }

/-- Fixture JWKS client holding key `kid` with soft-refresh deadline 10,
a failing source and a free semaphore. -/
def fixtureHitClient : JwksClient :=
  { source := .error "fetch failed"
    cache := { defaultExpiration := pubKeyExpiration
               items := [("kid", ⟨⟨⟨"kid", "material"⟩, 10⟩, 0⟩)]
               onEvictedSet := false }
    refresh := 600
    semFree := true }

/-- Fixture JWKS client with an empty cache and a source carrying exactly
key `kid`. -/
def fixtureMissClient : JwksClient :=
  { source := .ok ⟨[⟨"other", "m0"⟩, ⟨"kid", "m1"⟩]⟩
    cache := { defaultExpiration := pubKeyExpiration, items := [], onEvictedSet := false }
    refresh := 600
    semFree := true }

/-- Fixture JWKS client with an empty cache and a failing source. -/
def fixtureMissErrClient : JwksClient :=
  { source := .error "fetch failed"
    cache := { defaultExpiration := pubKeyExpiration, items := [], onEvictedSet := false }
    refresh := 600
    semFree := true }

/-! ## Association-list lemmas -/

theorem assocFind_cons (kv : String × α) (l : List (String × α)) (k : String) :
    assocFind (kv :: l) k = if kv.1 == k then some kv.2 else assocFind l k := by
  by_cases h : kv.1 == k <;> simp [assocFind, List.find?, h]

/-- Erasing one key does not change the binding of another. -/
theorem assocFind_assocErase_ne (l : List (String × α)) (k k' : String) (h : k' ≠ k) :
    assocFind (assocErase l k) k' = assocFind l k' := by
  induction l with
  | nil => rfl
  | cons kv rest ih =>
    by_cases hk : kv.1 == k
    · have hkk : kv.1 = k := by simpa using hk
      have hk' : (kv.1 == k') = false := by
        simp [hkk]
        intro he
        exact h he.symm
      simp [assocErase, hk, assocFind_cons, hk']
    · simp [assocErase, hk, assocFind_cons, ih]

/-- Inserting a binding makes it the one `assocFind` returns. -/
theorem assocFind_assocInsert (l : List (String × α)) (k : String) (v : α) :
    assocFind (assocInsert l k v) k = some v := by
  induction l with
  | nil => simp [assocInsert, assocFind, List.find?]
  | cons kv rest ih =>
    by_cases h : kv.1 == k
    · simp [assocInsert, h, assocFind_cons]
    · simp [assocInsert, h, assocFind_cons, ih]

/-- With duplicate-free keys, every stored pair is what `assocFind`
returns for its key. -/
theorem assocFind_of_mem_nodup (l : List (String × α))
    (hnodup : (l.map Prod.fst).Nodup) (kv : String × α) (h : kv ∈ l) :
    assocFind l kv.1 = some kv.2 := by
  induction l with
  | nil => cases h
  | cons kv' rest ih =>
    rcases List.mem_cons.mp h with heq | hmem
    · subst heq
      simp [assocFind_cons]
    · have hcons : List.map Prod.fst (kv' :: rest) = kv'.1 :: rest.map Prod.fst := rfl
      rw [hcons] at hnodup
      have hparts := List.nodup_cons.mp hnodup
      have hne : (kv'.1 == kv.1) = false := by
        have h2 : kv.1 ∈ rest.map Prod.fst := List.mem_map_of_mem Prod.fst hmem
        simp
        intro he
        exact hparts.1 (he ▸ h2)
      rw [assocFind_cons, hne]
      exact ih hparts.2 hmem

/-! ## C5 — cache TTL boundary -/

/-- C5 counterexample: an entry stored at instant 0 with duration 5 is
still found by `Get` at the exact instant `store_time + duration = 5`,
refuting the claim that `Get` returns found=false at that instant (the
expiry test is the strict `now > expiration`). -/
theorem c5_boundary_counterexample :
    ((Cache.new Int 0).store 0 "k" 42 5).1.get (0 + 5) "k" = some 42 := by
  decide

/-- C5 (amended): for an entry stored with `duration > 0` at a
non-negative instant, `Get` finds it at every instant up to and including
`store_time + duration`, and misses at every instant strictly after. -/
theorem c5_cache_ttl_boundary {α : Type} (c : Cache α) (now0 : Int) (key : String)
    (val : α) (d : Int) (hd : 0 < d) (hnow : 0 ≤ now0) (t : Int) :
    (t ≤ now0 + d → ((c.store now0 key val d).1.get t key) = some val) ∧
    (now0 + d < t → ((c.store now0 key val d).1.get t key) = none) := by
  have hdd : (d = DefaultExpiration) = False := by
    simp [DefaultExpiration]
    omega
  have hexp : now0 + d > 0 := by omega
  have key_eq : (c.store now0 key val d).1.get t key
      = if t > now0 + d then none else some val := by
    simp only [Cache.store, hdd, if_false, if_pos hd, Cache.get,
      assocFind_assocInsert]
    rw [if_pos hexp]
  constructor
  · intro ht
    rw [key_eq, if_neg (by omega)]
  · intro ht
    rw [key_eq, if_pos (by omega)]

/-- C5 witness: the amended theorem applied to a concrete store at instant
0 with duration 5, read back at instants 5 and 6. -/
theorem c5_cache_ttl_boundary_witness :
    (((Cache.new Int 0).store 0 "k" 42 5).1.get 5 "k" = some 42) ∧
    (((Cache.new Int 0).store 0 "k" 42 5).1.get 6 "k" = none) :=
  ⟨(c5_cache_ttl_boundary (Cache.new Int 0) 0 "k" 42 5 (by decide) (by decide) 5).1
      (by decide),
   (c5_cache_ttl_boundary (Cache.new Int 0) 0 "k" 42 5 (by decide) (by decide) 6).2
      (by decide)⟩

/-! ## C6 — eviction callback exactly once -/

/-- The `DeleteExpired` scan, started on a cache whose registered callback
and duplicate-free items cover the pending pairs, evicts exactly the
expired pending pairs in scan order. -/
theorem deleteExpired_fold {α : Type} (now : Int) (pending : List (String × Item α)) :
    ∀ (cc : Cache α) (acc : List (String × α)),
      cc.onEvictedSet = true →
      (∀ kv ∈ pending, assocFind cc.items kv.1 = some kv.2) →
      (pending.map Prod.fst).Nodup →
      (pending.foldl (Cache.deleteExpiredStep now) (cc, acc)).2
        = acc ++ (pending.filter (fun kv => kv.2.Expired now)).map
            (fun kv => (kv.1, kv.2.object)) := by
  induction pending with
  | nil => intro cc acc _ _ _; simp
  | cons kv rest ih =>
    intro cc acc hcb hfind hnodup
    have hkv : assocFind cc.items kv.1 = some kv.2 := hfind kv (by simp)
    have hcons : List.map Prod.fst (kv :: rest) = kv.1 :: rest.map Prod.fst := rfl
    rw [hcons] at hnodup
    have hparts := List.nodup_cons.mp hnodup
    by_cases hexp : kv.2.Expired now = true
    · have hstep : Cache.deleteExpiredStep now (cc, acc) kv
          = ({ cc with items := assocErase cc.items kv.1 }, acc ++ [(kv.1, kv.2.object)]) := by
        simp [Cache.deleteExpiredStep, hexp, Cache.deleteKey, hcb, hkv]
      have hrest : ∀ kv' ∈ rest,
          assocFind (assocErase cc.items kv.1) kv'.1 = some kv'.2 := by
        intro kv' hm
        have hne : kv'.1 ≠ kv.1 := by
          intro he
          exact hparts.1 (he ▸ List.mem_map_of_mem Prod.fst hm)
        rw [assocFind_assocErase_ne _ _ _ hne]
        exact hfind kv' (List.mem_cons_of_mem _ hm)
      have hih := ih { cc with items := assocErase cc.items kv.1 }
        (acc ++ [(kv.1, kv.2.object)]) hcb hrest hparts.2
      rw [List.foldl_cons, hstep, hih]
      simp [hexp]
    · have hstep : Cache.deleteExpiredStep now (cc, acc) kv = (cc, acc) := by
        simp [Cache.deleteExpiredStep, hexp]
      have hih := ih cc acc hcb (fun kv' hm => hfind kv' (List.mem_cons_of_mem _ hm))
        hparts.2
      rw [List.foldl_cons, hstep, hih]
      simp [hexp]

/-- C6: with an eviction callback registered and duplicate-free keys, a
`DeleteExpired` sweep invokes the callback exactly once per expired entry,
with that entry's key and value (in scan order, after the map update), and
`Store` — overwriting or not — never invokes it. -/
theorem c6_eviction_exactly_once {α : Type} (c : Cache α) (now : Int)
    (hcb : c.onEvictedSet = true)
    (hnodup : (c.items.map Prod.fst).Nodup) :
    (c.deleteExpired now).2
        = (c.items.filter (fun kv => kv.2.Expired now)).map
            (fun kv => (kv.1, kv.2.object))
    ∧ ∀ (key : String) (val : α) (d now2 : Int), (c.store now2 key val d).2 = [] := by
  refine ⟨?_, fun _ _ _ _ => rfl⟩
  have h := deleteExpired_fold now c.items c [] hcb
    (fun kv hm => assocFind_of_mem_nodup c.items hnodup kv hm) hnodup
  simpa [Cache.deleteExpired] using h

/-- C6 witness: on the fixture cache (entry `a` expired at instant 10,
entry `b` never expiring) the sweep reports exactly `[("a", 1)]`, and a
`Store` overwriting live entry `b` reports nothing. -/
theorem c6_eviction_witness :
    (fixtureEvictCache.deleteExpired 10).2 = [("a", 1)] ∧
    (fixtureEvictCache.store 20 "b" 3 5).2 = [] := by
  have h := c6_eviction_exactly_once fixtureEvictCache 10 rfl (by decide)
  exact ⟨by rw [h.1]; rfl, h.2 "b" 3 5 20⟩

/-! ## C7 — JWKS client construction validation -/

/-- C7: constructing a JWKS client with `refresh ≥ ttl` or `refresh < 0`
fails (the constructor panics, `none` here); every pair with
`0 ≤ refresh < ttl` constructs a client. -/
theorem c7_newClient_validation (src : Except String JSONWebKeySet)
    (refresh ttl : Int) :
    ((refresh ≥ ttl ∨ refresh < 0) → newClient src refresh ttl = none) ∧
    (0 ≤ refresh → refresh < ttl → (newClient src refresh ttl).isSome = true) := by
  constructor
  · intro hbad
    unfold newClient
    rcases hbad with hge | hneg
    · rw [if_pos hge]
    · by_cases hge : refresh ≥ ttl
      · rw [if_pos hge]
      · rw [if_neg hge, if_pos hneg]
  · intro h0 hlt
    unfold newClient
    rw [if_neg (by omega), if_neg (by omega)]
    unfold newJwksCache
    rw [if_neg (by omega)]
    rfl

/-- C7 witness: the validation theorem applied at `refresh = 5, ttl = 2`
(rejected), `refresh = -1, ttl = 2` (rejected) and `refresh = 1, ttl = 2`
(accepted). -/
theorem c7_newClient_validation_witness :
    newClient (.error "src") 5 2 = none ∧
    newClient (.error "src") (-1) 2 = none ∧
    (newClient (.error "src") 1 2).isSome = true :=
  ⟨(c7_newClient_validation (.error "src") 5 2).1 (Or.inl (by decide)),
   (c7_newClient_validation (.error "src") (-1) 2).1 (Or.inr (by decide)),
   (c7_newClient_validation (.error "src") 1 2).2 (by decide) (by decide)⟩

/-! ## C3 — GetKey cache hit never fetches synchronously -/

/-- C3 counterexample: a `GetKey` call whose context carries no logger
fails with the `logr.FromContext` error even though the requested key ID
is in the cache — the cached key is not returned, refuting the claim for
such calls (the logger lookup at the top of `GetKey` precedes the cache
lookup). -/
theorem c3_no_logger_counterexample :
    fixtureHitClient.cache.get 0 "kid" = some ⟨⟨"kid", "material"⟩, 10⟩ ∧
    (fixtureHitClient.getKey false 0 11 "kid" "sig").result
        = .error "no logr.Logger in context" ∧
    (Except.error "no logr.Logger in context" : Except String JSONWebKey)
        ≠ .ok ⟨"kid", "material"⟩ :=
  ⟨by decide, rfl, by simp⟩

/-- C3 (amended): a `GetKey` call whose context carries a logger and
whose key ID is in the cache returns the cached key successfully with no
synchronous source fetch and no cache change — whatever the source oracle
would answer — and it dispatches an asynchronous refresh exactly when the
instant is strictly past the entry's soft-refresh deadline and the
single-flight semaphore is free. -/
theorem c3_getkey_cache_hit (c : JwksClient) (now nowS : Int)
    (keyId use : String) (entry : JwksCacheEntry)
    (hhit : c.cache.get now keyId = some entry) :
    (c.getKey true now nowS keyId use).result = .ok entry.jwk ∧
    (c.getKey true now nowS keyId use).syncFetches = 0 ∧
    (c.getKey true now nowS keyId use).cache = c.cache ∧
    (c.getKey true now nowS keyId use).asyncDispatched
        = (decide (nowS > entry.refresh) && c.semFree) := by
  unfold JwksClient.getKey
  rw [hhit]
  exact ⟨rfl, rfl, rfl, rfl⟩

/-- C3 witness: on the fixture client (cached key `kid`, failing source,
deadline 10) a `GetKey` at seconds-instant 11 — past the deadline —
returns the cached key, performs no synchronous fetch, and dispatches the
asynchronous refresh. -/
theorem c3_getkey_cache_hit_witness :
    (fixtureHitClient.getKey true 0 11 "kid" "sig").result
        = .ok ⟨"kid", "material"⟩ ∧
    (fixtureHitClient.getKey true 0 11 "kid" "sig").syncFetches = 0 ∧
    (fixtureHitClient.getKey true 0 11 "kid" "sig").cache
        = fixtureHitClient.cache ∧
    (fixtureHitClient.getKey true 0 11 "kid" "sig").asyncDispatched = true := by
  have h := c3_getkey_cache_hit fixtureHitClient 0 11 "kid" "sig"
    ⟨⟨"kid", "material"⟩, 10⟩ (by decide)
  exact ⟨h.1, h.2.1, h.2.2.1, by rw [h.2.2.2]; decide⟩

/-! ## C4 — GetKey cache miss refreshes synchronously -/

/-- C4 counterexample: a `GetKey` call whose context carries no logger
performs no synchronous fetch at all on a cache miss and fails with the
`logr.FromContext` error rather than the propagated source error,
refuting the claim for such calls (the cache is empty and the source
would have failed with `fetch failed`). -/
theorem c4_no_logger_counterexample :
    fixtureMissErrClient.cache.get 0 "kid" = none ∧
    fixtureMissErrClient.source = .error "fetch failed" ∧
    (fixtureMissErrClient.getKey false 0 0 "kid" "sig").syncFetches = 0 ∧
    (fixtureMissErrClient.getKey false 0 0 "kid" "sig").result
        = .error "no logr.Logger in context" ∧
    ("no logr.Logger in context" : String) ≠ "fetch failed" :=
  ⟨by decide, rfl, rfl, rfl, by decide⟩

/-- C4 (amended): a `GetKey` call whose context carries a logger and
whose key ID is not in the cache performs exactly one synchronous fetch
of the entire key set; a source error is propagated verbatim, a fetched
key set lacking the key ID yields the not-found error, and any key
returned successfully carries the requested key ID. -/
theorem c4_getkey_cache_miss (c : JwksClient) (now nowS : Int)
    (keyId use : String) (hmiss : c.cache.get now keyId = none) :
    (c.getKey true now nowS keyId use).syncFetches = 1 ∧
    (∀ e, c.source = .error e →
        (c.getKey true now nowS keyId use).result = .error e) ∧
    (∀ ks, c.source = .ok ks → ks.key keyId = [] →
        (c.getKey true now nowS keyId use).result
          = .error ("JWK key " ++ keyId ++ " not found")) ∧
    (∀ k, (c.getKey true now nowS keyId use).result = .ok k →
        k.keyID = keyId) := by
  have herr : ∀ e, c.source = .error e →
      c.getKey true now nowS keyId use
        = { result := .error e, cache := c.cache, syncFetches := 1,
            asyncDispatched := false } := by
    intro e he
    simp [JwksClient.getKey, hmiss, JwksClient.refreshKey, JwksClient.getKeySet, he]
  have hoknil : ∀ ks, c.source = .ok ks → ks.key keyId = [] →
      c.getKey true now nowS keyId use
        = { result := .error ("JWK key " ++ keyId ++ " not found"), cache := c.cache,
            syncFetches := 1, asyncDispatched := false } := by
    intro ks hks hempty
    simp [JwksClient.getKey, hmiss, JwksClient.refreshKey, JwksClient.getKeySet,
      hks, hempty]
  have hokcons : ∀ ks k0 rest, c.source = .ok ks → ks.key keyId = k0 :: rest →
      c.getKey true now nowS keyId use
        = { result := .ok k0, cache := c.storeKey now nowS keyId k0,
            syncFetches := 1, asyncDispatched := false } := by
    intro ks k0 rest hks hkey
    simp [JwksClient.getKey, hmiss, JwksClient.refreshKey, JwksClient.getKeySet,
      hks, hkey]
  refine ⟨?_, ?_, ?_, ?_⟩
  · cases hsrc : c.source with
    | error e => rw [herr e hsrc]
    | ok ks =>
      cases hkey : ks.key keyId with
      | nil => rw [hoknil ks hsrc hkey]
      | cons k0 rest => rw [hokcons ks k0 rest hsrc hkey]
  · intro e he
    rw [herr e he]
  · intro ks hks hempty
    rw [hoknil ks hks hempty]
  · intro k hk
    cases hsrc : c.source with
    | error e =>
      rw [herr e hsrc] at hk
      simp at hk
    | ok ks =>
      cases hkey : ks.key keyId with
      | nil =>
        rw [hoknil ks hsrc hkey] at hk
        simp at hk
      | cons k0 rest =>
        rw [hokcons ks k0 rest hsrc hkey] at hk
        simp at hk
        have hmem : k0 ∈ ks.key keyId := by
          rw [hkey]
          exact List.mem_cons_self _ _
        have hpred := List.of_mem_filter hmem
        rw [← hk]
        simpa using hpred

/-- C4 witness: on the fixture miss client (empty cache, source holding
keys `other` and `kid`) a `GetKey` for `kid` performs one synchronous
fetch and the returned key carries key ID `kid`. -/
theorem c4_getkey_cache_miss_witness :
    (fixtureMissClient.getKey true 0 0 "kid" "sig").syncFetches = 1 ∧
    (⟨"kid", "m1"⟩ : JSONWebKey).keyID = "kid" := by
  have h := c4_getkey_cache_miss fixtureMissClient 0 0 "kid" "sig" (by decide)
  exact ⟨h.1, h.2.2.2 ⟨"kid", "m1"⟩ (by rfl)⟩

/-! ## C9 — TLS inspector idempotence -/

/-- Adding the TLS inspector to a listener without one appends exactly one
entry. -/
theorem tlsInspector_add_of_absent (l : XdsListener)
    (h : tlsInspectorCount l = 0) :
    tlsInspectorCount (addXdsTLSInspectorFilter l) = 1 := by
  have hfil : l.listenerFilters.filter (fun f => f.name == tlsInspectorFilterName)
      = [] := List.length_eq_zero.mp h
  have hnone : l.listenerFilters.any (fun f => f.name == tlsInspectorFilterName)
      = false := by
    rw [List.any_eq_false]
    intro f hf hpred
    have hm : f ∈ l.listenerFilters.filter (fun f => f.name == tlsInspectorFilterName) :=
      List.mem_filter.mpr ⟨hf, hpred⟩
    rw [hfil] at hm
    cases hm
  unfold addXdsTLSInspectorFilter
  rw [hnone]
  simp only [Bool.false_eq_true, if_false, tlsInspectorCount, List.filter_append, hfil]
  rfl

/-- Adding the TLS inspector to a listener that already has one is the
identity. -/
theorem tlsInspector_add_of_present (l : XdsListener)
    (h : 1 ≤ tlsInspectorCount l) :
    addXdsTLSInspectorFilter l = l := by
  have hne : l.listenerFilters.filter (fun f => f.name == tlsInspectorFilterName)
      ≠ [] := by
    intro hnil
    rw [tlsInspectorCount, hnil] at h
    simp at h
  obtain ⟨f, hf⟩ := List.exists_mem_of_ne_nil _ hne
  have hmem := List.mem_filter.mp hf
  have hany : l.listenerFilters.any (fun f => f.name == tlsInspectorFilterName)
      = true := List.any_eq_true.mpr ⟨f, hmem.1, hmem.2⟩
  unfold addXdsTLSInspectorFilter
  rw [hany]
  simp

/-- A listener with exactly one TLS inspector keeps exactly one through
any number of further additions. -/
theorem tlsInspector_iterate_of_one (m : Nat) :
    ∀ (x : XdsListener), tlsInspectorCount x = 1 →
      tlsInspectorCount (addXdsTLSInspectorFilter^[m] x) = 1 := by
  induction m with
  | zero => intro x hx; simpa using hx
  | succ k ih =>
    intro x hx
    rw [Function.iterate_succ_apply, tlsInspector_add_of_present x (by omega)]
    exact ih x hx

/-- C9: starting from a listener with at most one TLS-inspector entry
(in particular a freshly assembled one with none), any positive number of
`addXdsTLSInspectorFilter` invocations — one per SNI-matched chain —
leaves exactly one TLS-inspector entry in the listener-filter list. -/
theorem c9_tls_inspector_idempotent (l : XdsListener) (n : Nat)
    (hstart : tlsInspectorCount l ≤ 1) (hn : 1 ≤ n) :
    tlsInspectorCount (addXdsTLSInspectorFilter^[n] l) = 1 := by
  obtain ⟨m, rfl⟩ : ∃ m, n = m + 1 := ⟨n - 1, by omega⟩
  rw [Function.iterate_succ_apply]
  have h1 : tlsInspectorCount (addXdsTLSInspectorFilter l) = 1 := by
    rcases Nat.lt_or_ge (tlsInspectorCount l) 1 with hlt | hge
    · exact tlsInspector_add_of_absent l (by omega)
    · rw [tlsInspector_add_of_present l hge]
      omega
  exact tlsInspector_iterate_of_one m _ h1

/-- C9 witness: adding the TLS inspector twice to a listener with no
listener filters leaves exactly one entry. -/
theorem c9_tls_inspector_idempotent_witness :
    tlsInspectorCount (addXdsTLSInspectorFilter^[2] ⟨"l", []⟩) = 1 :=
  c9_tls_inspector_idempotent ⟨"l", []⟩ 2 (by decide) (by decide)

/-! ## C10 — provider collection stops at the first route without JWT -/

/-- The collection loop abandons everything after the first route that is
nil or lacks `RequestAuthentication`/`JWT`, keeping what the earlier
routes contributed. -/
theorem collectProviders_early (post : List (Option HTTPRoute))
    (bad : Option HTTPRoute) (hbad : routeHasJwtStruct bad = false) :
    ∀ (pre : List (Option HTTPRoute)) (acc : List JwtAuthenticationFilterProvider),
      (∀ r ∈ pre, routeHasJwtStruct r = true) →
      collectProviders acc (pre ++ bad :: post) = collectProviders acc pre := by
  intro pre
  induction pre with
  | nil =>
    intro acc _
    cases bad with
    | none => rfl
    | some route =>
      cases hra : route.requestAuthentication with
      | none => simp [collectProviders, hra]
      | some ra =>
        cases hjwt : ra.jwt with
        | none => simp [collectProviders, hra, hjwt]
        | some jwt => simp [routeHasJwtStruct, hra, hjwt] at hbad
  | cons r rest ih =>
    intro acc hpre
    have hr : routeHasJwtStruct r = true := hpre r (by simp)
    cases r with
    | none => simp [routeHasJwtStruct] at hr
    | some route =>
      cases hra : route.requestAuthentication with
      | none => simp [routeHasJwtStruct, hra] at hr
      | some ra =>
        cases hjwt : ra.jwt with
        | none => simp [routeHasJwtStruct, hra, hjwt] at hr
        | some jwt =>
          simp only [List.cons_append, collectProviders, hra, hjwt]
          exact ih _ (fun r' hm => hpre r' (List.mem_cons_of_mem _ hm))

/-- C10: when every route before position `k` passes the nil checks and
the route at position `k` does not, `uniqueJwtAuthnProviders` returns
exactly what it returns for the prefix before `k` — providers of later
routes are omitted, those of earlier routes kept. -/
theorem c10_collection_early_return (name : String)
    (pre post : List (Option HTTPRoute)) (bad : Option HTTPRoute)
    (hpre : ∀ r ∈ pre, routeHasJwtStruct r = true)
    (hbad : routeHasJwtStruct bad = false) :
    uniqueJwtAuthnProviders ⟨name, pre ++ bad :: post⟩
      = uniqueJwtAuthnProviders ⟨name, pre⟩ := by
  have hmain := collectProviders_early post bad hbad pre [] hpre
  cases pre with
  | nil =>
    simp only [List.nil_append] at hmain
    simp [uniqueJwtAuthnProviders, hmain]
    cases bad with
    | none => rfl
    | some route =>
      cases hra : route.requestAuthentication with
      | none => simp [collectProviders, hra]
      | some ra =>
        cases hjwt : ra.jwt with
        | none => simp [collectProviders, hra, hjwt]
        | some jwt => simp [routeHasJwtStruct, hra, hjwt] at hbad
  | cons p ps =>
    simp only [uniqueJwtAuthnProviders, List.cons_append, List.isEmpty_cons,
      if_false, Bool.false_eq_true]
    exact hmain

/-! ## C8 — synthesized JWKS cluster name and scheme rejection -/

/-- When a host string carries no port, stripping the port is the
identity. -/
theorem hostnameOf_eq_of_hostPort_none (h : String) (hp : hostPort h = none) :
    hostnameOf h = h := by
  unfold hostPort at hp
  unfold hostnameOf
  cases hsp : splitOnChar ':' h.data with
  | nil => rfl
  | cons a t =>
    cases t with
    | nil => rfl
    | cons b t2 =>
      cases t2 with
      | nil =>
        rw [hsp] at hp
        simp at hp
      | cons c t3 => rfl

theorem newJwksCluster_ok_shape (resolve : String → Except String (List String))
    (p : JwtAuthenticationFilterProvider) (u : ParsedURL) (c : JwksCluster)
    (hu : parseURL p.remoteJWKS.uri = some u)
    (hok : newJwksCluster resolve p = .ok c) :
    (u.scheme = "http" ∨ u.scheme = "https") ∧
    ∃ addrs, resolve u.host = .ok addrs ∧
      c.name = replaceDots u.host ++ "_"
        ++ ((hostPort u.host).getD (if u.scheme = "http" then "80" else "443")) := by
  unfold newJwksCluster at hok
  rw [hu] at hok
  by_cases hhttp : u.scheme = "http"
  · simp only [hhttp] at hok
    simp at hok
    refine ⟨Or.inl hhttp, ?_⟩
    rw [hhttp, if_pos rfl]
    cases hr : resolve u.host with
    | error e =>
      rw [hr] at hok
      simp at hok
    | ok addrs =>
      rw [hr] at hok
      simp at hok
      cases hat : strAtoi? ((hostPort u.host).getD "80") with
      | none =>
        rw [hat] at hok
        simp at hok
      | some port =>
        rw [hat] at hok
        simp at hok
        refine ⟨addrs, rfl, ?_⟩
        rw [← hok]
  · by_cases hhttps : u.scheme = "https"
    · simp only [hhttps] at hok
      simp at hok
      refine ⟨Or.inr hhttps, ?_⟩
      rw [hhttps, if_neg (by decide : ¬ ("https" = "http"))]
      cases hr : resolve u.host with
      | error e =>
        rw [hr] at hok
        simp at hok
      | ok addrs =>
        rw [hr] at hok
        simp at hok
        cases hat : strAtoi? ((hostPort u.host).getD "443") with
        | none =>
          rw [hat] at hok
          simp at hok
        | some port =>
          rw [hat] at hok
          simp at hok
          refine ⟨addrs, rfl, ?_⟩
          rw [← hok]
    · simp [hhttp, hhttps] at hok

/-- C8: for a resolver that — like `net.LookupIP` with the literal-IPv4
`net.ParseIP` fallback — never succeeds on a host string still carrying a
`:port` suffix, a provider whose remote-JWKS URI parses with a scheme
other than http/https is rejected with the unsupported-scheme error, and
every synthesized cluster is named by the URI's hostname with every `.`
replaced by `_`, then `_` and the resolved port (the URI's explicit port
if present, otherwise 80 for http and 443 for https). -/
theorem c8_jwks_cluster_name (resolve : String → Except String (List String))
    (hres : ∀ s addrs, resolve s = .ok addrs → hostPort s = none)
    (p : JwtAuthenticationFilterProvider) (u : ParsedURL)
    (hu : parseURL p.remoteJWKS.uri = some u) :
    ((u.scheme ≠ "http" ∧ u.scheme ≠ "https") →
        newJwksCluster resolve p
          = .error ("unsupported JWKS URI scheme " ++ u.scheme)) ∧
    (∀ c, newJwksCluster resolve p = .ok c →
        c.name = replaceDots (hostnameOf u.host) ++ "_"
          ++ ((hostPort u.host).getD
                (if u.scheme = "http" then "80" else "443"))) := by
  constructor
  · intro hbad
    unfold newJwksCluster
    rw [hu]
    simp [hbad.1, hbad.2]
  · intro c hok
    obtain ⟨hsch, addrs, hr, hname⟩ :=
      newJwksCluster_ok_shape resolve p u c hu hok
    have hpn := hres u.host addrs hr
    rw [hostnameOf_eq_of_hostPort_none u.host hpn]
    exact hname

/-- C8 witness: under the fixture resolver, an `ftp` JWKS URI is rejected
with the unsupported-scheme error, and the cluster built for
`https://a.b/jwks.json` carries the claimed name (hostname `a.b` with the
dot replaced, suffixed by the default https port). -/
theorem c8_jwks_cluster_name_witness :
    newJwksCluster fixtureResolve ⟨"pftp", "iss", [], ⟨"ftp://a.b/jwks.json"⟩⟩
      = .error ("unsupported JWKS URI scheme " ++ "ftp") ∧
    (⟨"a_b_443", ["1.2.3.4"], 443⟩ : JwksCluster).name
      = replaceDots (hostnameOf "a.b") ++ "_"
        ++ ((hostPort "a.b").getD
              (if ("https" : String) = "http" then "80" else "443")) := by
  have hres : ∀ s addrs, fixtureResolve s = .ok addrs → hostPort s = none := by
    intro s addrs h
    by_cases hp : hostPort s = none
    · exact hp
    · exfalso
      simp [fixtureResolve, hp] at h
  constructor
  · exact (c8_jwks_cluster_name fixtureResolve hres
      ⟨"pftp", "iss", [], ⟨"ftp://a.b/jwks.json"⟩⟩ ⟨"ftp", "a.b"⟩ (by decide)).1
      ⟨by decide, by decide⟩
  · exact (c8_jwks_cluster_name fixtureResolve hres fixtureP1 ⟨"https", "a.b"⟩
      (by decide)).2 ⟨"a_b_443", ["1.2.3.4"], 443⟩ (by rfl)

/-! ## C1 — requirement shape per builder -/

/-- C1 counterexample: neither builder realises the claimed pair of
shapes.  The route-set builder with exactly one provider produces
`any of (origins-0, allow-missing)`, not a bare provider reference; and
the listener builder with two providers (`p1`, `p3`) produces the flat
`any of (p1, p3)` without the claimed nested `all of` element. -/
theorem c1_rule_shape_counterexample :
    ((convertToEnvoyJwtConfig [fixtureRule1]).map
        (fun a => a.rules.map (fun x => x.requires))
      = some [.requiresAny [.providerName "origins-0", .allowMissing]]) ∧
    JwtRequirement.requiresAny [.providerName "origins-0", .allowMissing]
        ≠ .providerName "origins-0" ∧
    ((buildJwtAuthn fixtureResolve fixtureL2).map
        (fun a => a.rules.map (fun x => x.requires))
      = .ok [.requiresAny [.providerName "p1", .providerName "p3"]]) ∧
    JwtRequirement.requiresAny [.providerName "p1", .providerName "p3"]
        ≠ .requiresAny [.providerName "p1", .providerName "p3",
            .requiresAll [.requiresAny [.providerName "p1", .allowMissing],
                          .requiresAny [.providerName "p3", .allowMissing]]] :=
  ⟨rfl, by simp, rfl, by simp⟩

/-- C1 (amended): the listener builder `buildJwtAuthn` emits a bare
provider reference for one provider and the flat `any of (P1, P2)` for
two; the route-set builder `convertToEnvoyJwtConfig` emits
`any of (P1, allow-missing)` for one rule and, for two, the `any of`
containing `P1`, `P2` and the `all of` over the per-provider
`any of (Pi, allow-missing)` requirements. -/
theorem c1_rule_shapes (resolve : String → Except String (List String))
    (l1 l2 : HTTPListener) (p p1 p2 : JwtAuthenticationFilterProvider)
    (a1 a2 : JwtAuthentication) (r r1 r2 : JWTRule)
    (h1 : uniqueJwtAuthnProviders l1 = [p])
    (hok1 : buildJwtAuthn resolve l1 = .ok a1)
    (h2 : uniqueJwtAuthnProviders l2 = [p1, p2])
    (hok2 : buildJwtAuthn resolve l2 = .ok a2) :
    (a1.rules.map (fun x => x.requires) = [.providerName p.name]) ∧
    (a2.rules.map (fun x => x.requires)
        = [.requiresAny [.providerName p1.name, .providerName p2.name]]) ∧
    ((convertToEnvoyJwtConfig [r]).map (fun a => a.rules.map (fun x => x.requires))
        = some [.requiresAny [.providerName "origins-0", .allowMissing]]) ∧
    ((convertToEnvoyJwtConfig [r1, r2]).map
          (fun a => a.rules.map (fun x => x.requires))
        = some [.requiresAny [.providerName "origins-0", .providerName "origins-1",
            .requiresAll [.requiresAny [.providerName "origins-0", .allowMissing],
                          .requiresAny [.providerName "origins-1", .allowMissing]]]]) := by
  have ho0 : originName 0 = "origins-0" := by decide
  have ho1 : originName 1 = "origins-1" := by decide
  refine ⟨?_, ?_, by simp [convertToEnvoyJwtConfig, ho0], by
    simp [convertToEnvoyJwtConfig, List.enum, List.enumFrom, ho0, ho1]⟩
  · simp only [buildJwtAuthn, h1] at hok1
    cases hc : newJwksCluster resolve p with
    | error e => simp [buildJwtAuthnLoop, hc] at hok1
    | ok c =>
      simp only [List.isEmpty_cons, Bool.false_eq_true, if_false,
        buildJwtAuthnLoop, hc, assocInsert, List.nil_append] at hok1
      rw [← Except.ok.inj hok1]
      rfl
  · simp only [buildJwtAuthn, h2] at hok2
    cases hc1 : newJwksCluster resolve p1 with
    | error e => simp [buildJwtAuthnLoop, hc1] at hok2
    | ok c1 =>
      cases hc2 : newJwksCluster resolve p2 with
      | error e => simp [buildJwtAuthnLoop, hc1, hc2] at hok2
      | ok c2 =>
        simp only [List.isEmpty_cons, Bool.false_eq_true, if_false,
          buildJwtAuthnLoop, hc1, hc2, assocInsert, List.nil_append,
          List.cons_append] at hok2
        rw [← Except.ok.inj hok2]
        rfl

/-- C1 witness: the amended shape theorem applied to the one- and
two-provider fixture listeners and the fixture rules. -/
theorem c1_rule_shapes_witness :
    (fixtureAuth1.rules.map (fun x => x.requires) = [.providerName "p1"]) ∧
    (fixtureAuth2.rules.map (fun x => x.requires)
        = [.requiresAny [.providerName "p1", .providerName "p3"]]) ∧
    ((convertToEnvoyJwtConfig [fixtureRule1]).map
          (fun a => a.rules.map (fun x => x.requires))
        = some [.requiresAny [.providerName "origins-0", .allowMissing]]) ∧
    ((convertToEnvoyJwtConfig [fixtureRule1, fixtureRule2]).map
          (fun a => a.rules.map (fun x => x.requires))
        = some [.requiresAny [.providerName "origins-0", .providerName "origins-1",
            .requiresAll [.requiresAny [.providerName "origins-0", .allowMissing],
                          .requiresAny [.providerName "origins-1", .allowMissing]]]]) :=
  c1_rule_shapes fixtureResolve fixtureL1 fixtureL2 fixtureP1 fixtureP1 fixtureP3
    fixtureAuth1 fixtureAuth2 fixtureRule1 fixtureRule1 fixtureRule2
    (by rfl) (by rfl) (by rfl) (by rfl)

/-! ## C2 — provider deduplication keyed by the first-seen name -/

/-- C2: on a listener with two routes each declaring one provider, the two
providers structurally identical in every field except the name, the
collected unique-provider list is exactly the first route's provider, and
whenever the filter builder succeeds its provider map holds exactly one
entry, keyed by the first-seen provider's name. -/
theorem c2_provider_dedup (lname r1name r2name : String)
    (p q : JwtAuthenticationFilterProvider)
    (hiss : p.issuer = q.issuer) (haud : p.audiences = q.audiences)
    (hjwks : p.remoteJWKS = q.remoteJWKS)
    (resolve : String → Except String (List String)) (a : JwtAuthentication)
    (hok : buildJwtAuthn resolve
        ⟨lname, [mkJwtRoute r1name [p], mkJwtRoute r2name [q]]⟩ = .ok a) :
    uniqueJwtAuthnProviders
        ⟨lname, [mkJwtRoute r1name [p], mkJwtRoute r2name [q]]⟩ = [p] ∧
    a.providers.map Prod.fst = [p.name] := by
  have huniq : uniqueJwtAuthnProviders
      ⟨lname, [mkJwtRoute r1name [p], mkJwtRoute r2name [q]]⟩ = [p] := by
    simp [uniqueJwtAuthnProviders, collectProviders, mkJwtRoute,
      appendUniqueProvider, providerEqIgnoreName, hiss, haud, hjwks]
  refine ⟨huniq, ?_⟩
  simp only [buildJwtAuthn, huniq] at hok
  cases hc : newJwksCluster resolve p with
  | error e =>
    simp [buildJwtAuthnLoop, hc] at hok
  | ok c =>
    simp only [List.isEmpty_cons, Bool.false_eq_true, if_false,
      buildJwtAuthnLoop, hc, assocInsert, List.nil_append] at hok
    have ha := Except.ok.inj hok
    rw [← ha]
    rfl

/-- C2 witness: the dedup theorem applied to the fixture listener whose
two routes carry `fixtureP1` and `fixtureP2` (equal except the name): the
provider map of the built config has the single key `p1`. -/
theorem c2_provider_dedup_witness :
    uniqueJwtAuthnProviders fixtureL12 = [fixtureP1] ∧
    fixtureAuthDedup.providers.map Prod.fst = ["p1"] :=
  c2_provider_dedup "dedup" "r1" "r2" fixtureP1 fixtureP2 rfl rfl rfl
    fixtureResolve fixtureAuthDedup (by rfl)

/-- C10 witness: a listener whose second route has a nil
`RequestAuthentication` yields the providers of the first route only,
omitting the third route's provider. -/
theorem c10_collection_early_return_witness :
    uniqueJwtAuthnProviders
        ⟨"l", [mkJwtRoute "r1" [fixtureP1]] ++ some ⟨"rbad", none⟩
            :: [mkJwtRoute "r3" [fixtureP3]]⟩
      = uniqueJwtAuthnProviders ⟨"l", [mkJwtRoute "r1" [fixtureP1]]⟩ ∧
    uniqueJwtAuthnProviders ⟨"l", [mkJwtRoute "r1" [fixtureP1]]⟩ = [fixtureP1] :=
  ⟨c10_collection_early_return "l" [mkJwtRoute "r1" [fixtureP1]]
      [mkJwtRoute "r3" [fixtureP3]] (some ⟨"rbad", none⟩) (by decide) (by decide),
   by decide⟩

end Gateway
